import Mathlib

/-!
Shallow embedding of the launch-preparation pipeline of the llauncher-electron
repository: the rule engine, argument template engine (launchManager.ts), the
version-definition merge (mergeVersionDetails in the versions manager), the
classpath assembler (buildClasspath), the native materializer (extractNatives),
the per-task download state machine (downloadFile) and the download worker pool
(downloadMultipleFiles) of downloadManager.ts, and the launch guard of
launchVersion.  JavaScript objects are modelled as structures with Option
fields (undefined = none), JS Maps as insertion-ordered association lists, and
JS string truthiness ("" is falsy) is made explicit where the source relies on
it.
-/

namespace LLauncher

/-- Platform information for rule checks performed without an explicit context;
mirrors os.platform() and os.arch() in checkRule's fallback branch. -/
structure SysInfo where
  platform : String
  arch : String
  deriving DecidableEq, Repr

/-- OsName enum from types/VersionDetails.ts (values "windows", "osx", "linux"). -/
inductive OsName
  | windows
  | osx
  | linux
  deriving DecidableEq, Repr

/-- Action enum from types/VersionDetails.ts. -/
inductive Action
  | allow
  | disallow
  deriving DecidableEq, Repr

/-- OsRule from types/VersionDetails.ts: optional name/arch/version constraints. -/
structure OsRule where
  name : Option OsName
  arch : Option String
  version : Option String
  deriving DecidableEq, Repr

/-- A rule as handled dynamically by checkRule: launchManager.ts tests
apostrophe-free membership ('os' in rule, 'features' in rule), so both parts
are optional here.  Feature maps are JS objects, modelled as association
lists of (key, required) pairs. -/
structure Rule where
  action : Action
  os : Option OsRule
  features : Option (List (String × Bool))
  deriving DecidableEq, Repr

/-- Context operating-system part of types/RuleContext.ts; name is a plain
string there ("windows" | "osx" | "linux" or an OsName value). -/
structure CtxOs where
  name : String
  arch : String
  version : Option String
  deriving DecidableEq, Repr

/-- RuleContext from types/RuleContext.ts; features is Record of string to bool. -/
structure RuleContext where
  os : CtxOs
  features : List (String × Bool)
  deriving DecidableEq, Repr

/-- Map os.platform() output to the launcher's OS bucket, as done in the
fallback branch of checkRule (win32 to windows, darwin to osx, linux stays). -/
def sysOsName (sys : SysInfo) : String :=
  if sys.platform == "win32" then "windows"
  else if sys.platform == "darwin" then "osx"
  else if sys.platform == "linux" then "linux"
  else sys.platform

/-- Lookup of a feature flag in a JS object/Record: an absent key is
undefined, hence falsy. -/
def featureLookup (fs : List (String × Bool)) (k : String) : Bool :=
  (fs.lookup k).getD false

/-- The three osMatch comparisons of checkRule (launchManager.ts lines 86 to
106): a rule OS name accepts the current name when it equals the launcher
bucket or the raw platform alias. -/
def osNameAllowsCurrent : OsName → String → Bool
  | .windows, cur => cur == "windows" || cur == "win32"
  | .osx, cur => cur == "osx" || cur == "darwin"
  | .linux, cur => cur == "linux"

/-- checkRule from launchManager.ts (lines 50 to 147).  With a context, OS
name/arch come from the context and declared feature requirements are checked
against the context's feature map; without a context, OS data comes from the
system and only the is_demo_user / has_custom_resolution flags are forced to
"inactive" (all other declared features are ignored, leaving featuresMatch
true). -/
def checkRule (rule : Rule) (context : Option RuleContext) (sys : SysInfo) : Bool :=
  let osMatch :=
    match rule.os with
    | none => true
    | some ro =>
      let currentOsName :=
        match context with
        | some ctx => ctx.os.name
        | none => sysOsName sys
      let currentArch :=
        match context with
        | some ctx => ctx.os.arch
        | none => sys.arch
      let nameOk :=
        match ro.name with
        | none => true
        | some rn => osNameAllowsCurrent rn currentOsName
      let archOk :=
        match ro.arch with
        | none => true
        | some ra => if ra == "" then true else ra == currentArch
      nameOk && archOk
  let featuresMatch :=
    match rule.features with
    | none => true
    | some fs =>
      match context with
      | some ctx => fs.all (fun kv => !(kv.2 && !(featureLookup ctx.features kv.1)))
      | none =>
        !(featureLookup fs "is_demo_user") && !(featureLookup fs "has_custom_resolution")
  if rule.action == Action.allow then osMatch && featuresMatch
  else !(osMatch && featuresMatch)

/-- Evaluation of a rule list, as used at every call site:
rules.every(rule and context to checkRule(rule, context)). -/
def checkRules (rules : List Rule) (context : Option RuleContext) (sys : SysInfo) : Bool :=
  rules.all (fun r => checkRule r context sys)

/-- Structural splitter over character lists (kernel-computable model of
string splitting by a non-empty separator); fuel bounds the scan and is
always sufficient when set to the input length plus one. -/
def splitOnListAux (sep : List Char) : Nat → List Char → List Char → List (List Char)
  | 0, acc, rest => [acc.reverse ++ rest]
  | fuel + 1, acc, rest =>
    if sep.isPrefixOf rest then
      acc.reverse :: splitOnListAux sep fuel [] (rest.drop sep.length)
    else
      match rest with
      | [] => [acc.reverse]
      | c :: cs => splitOnListAux sep fuel (c :: acc) cs

/-- String.prototype.split with a string separator (also the semantics of
Lean's String.splitOn), as a kernel-computable function. -/
def splitOnStr (s sep : String) : List String :=
  if sep == "" then [s]
  else (splitOnListAux sep.data (s.data.length + 1) [] s.data).map fun l => String.mk l

/-- String.prototype.startsWith, kernel-computable. -/
def startsWithStr (s pre : String) : Bool := pre.data.isPrefixOf s.data

/-- Global replacement of a non-empty pattern (the semantics of a global
regex replace in JS and of Lean's String.replace), kernel-computable. -/
def replaceAll (s pat rep : String) : String :=
  if pat == "" then s else String.intercalate rep (splitOnStr s pat)

/-- replacePlaceholders from launchManager.ts (lines 182 to 193): for every
variable key, globally replace the dollar-brace token by the value. -/
def replacePlaceholders (template : String) (vars : List (String × String)) : String :=
  vars.foldl (fun result kv => replaceAll result ("$\x7b" ++ kv.1 ++ "\x7d") kv.2) template

/-- The value of a rule-based argument: Array of string or a single string in
the TS type; processArguments wraps the single case into a one-element list. -/
inductive ArgValue
  | one (s : String)
  | many (l : List String)
  deriving DecidableEq, Repr

/-- Array.isArray(arg.value) ? arg.value : [arg.value]. -/
def ArgValue.toList : ArgValue → List String
  | .one s => [s]
  | .many l => l

/-- One entry of arguments.jvm / arguments.game: either a plain string or a
rule-based argument with optional rules. -/
inductive ArgEntry
  | str (s : String)
  | ruled (rules : Option (List Rule)) (value : ArgValue)
  deriving DecidableEq, Repr

/-- The strings one entry pushes inside the processArguments loop: a plain
string pushes its substitution; a rule-based entry pushes its substituted
values when every rule passes checkRule called WITHOUT a context
(launchManager.ts line 165), nothing otherwise. -/
def argEntryOutput (vars : List (String × String)) (sys : SysInfo) : ArgEntry → List String
  | .str s => [replacePlaceholders s vars]
  | .ruled rules value =>
    let allow :=
      match rules with
      | some rs => rs.all (fun rule => checkRule rule none sys)
      | none => true
    if allow then (ArgValue.toList value).map (fun v => replacePlaceholders v vars)
    else []

/-- processArguments from launchManager.ts (lines 152 to 177): the forEach
push loop, i.e. the concatenation of every entry's output in order. -/
def processArguments (args : List ArgEntry) (vars : List (String × String))
    (sys : SysInfo) : List String :=
  args.foldl (fun processed arg => processed ++ argEntryOutput vars sys arg) []

/-- DownloadDetails from types/VersionDetails.ts (sha1, size, url, optional path). -/
structure DownloadDetails where
  sha1 : String
  size : Nat
  url : String
  path : Option String
  deriving DecidableEq, Repr

/-- LibraryDownloads: main artifact plus optional classifier map. -/
structure LibraryDownloads where
  artifact : Option DownloadDetails
  classifiers : Option (List (String × DownloadDetails))
  deriving DecidableEq, Repr

/-- Natives object: per-OS classifier template. -/
structure Natives where
  linux : Option String
  osx : Option String
  windows : Option String
  deriving DecidableEq, Repr

/-- Library from types/VersionDetails.ts.  The extract field records the
exclusion prefixes (extract.exclude). -/
structure Library where
  downloads : Option LibraryDownloads
  name : String
  rules : Option (List Rule)
  natives : Option Natives
  extract : Option (List String)
  deriving DecidableEq, Repr

/-- Arguments object with game and jvm entry lists; the merge code defends
against absent arrays, hence Option. -/
structure Arguments where
  game : Option (List ArgEntry)
  jvm : Option (List ArgEntry)
  deriving DecidableEq, Repr

/-- AssetIndex descriptor. -/
structure AssetIndex where
  id : String
  sha1 : String
  size : Nat
  url : String
  deriving DecidableEq, Repr

/-- Version-level downloads; only the client artifact is consumed by the
modelled code. -/
structure VersionDownloads where
  client : Option DownloadDetails
  deriving DecidableEq, Repr

/-- Logging client file descriptor (id, sha1, size, url), fields optional as
checked by getRequiredInitialDownloads. -/
structure LoggingFile where
  id : Option String
  sha1 : Option String
  size : Option Nat
  url : Option String
  deriving DecidableEq, Repr

/-- Logging client part: the argument template and the config file. -/
structure LoggingClient where
  argument : Option String
  file : Option LoggingFile
  deriving DecidableEq, Repr

/-- Logging section of a version definition. -/
structure Logging where
  client : Option LoggingClient
  deriving DecidableEq, Repr

/-- VersionDetails from types/VersionDetails.ts.  Fields the merge code treats
as possibly absent on raw JSON are Options. -/
structure VersionDetails where
  id : String
  inheritsFrom : Option String
  time : Option String
  releaseTime : Option String
  type : Option String
  mainClass : Option String
  logging : Option Logging
  minimumLauncherVersion : Option Nat
  complianceLevel : Option Nat
  libraries : Option (List Library)
  arguments : Option Arguments
  assetIndex : Option AssetIndex
  assets : Option String
  downloads : Option VersionDownloads
  deriving DecidableEq, Repr

/-- JS Map.set semantics on an insertion-ordered association list: setting an
existing key replaces the value in place (keeping the original position),
otherwise the pair is appended. -/
def mapSet {α : Type} (m : List (String × α)) (k : String) (v : α) : List (String × α) :=
  if m.any (fun p => p.1 == k) then
    m.map (fun p => if p.1 == k then (k, v) else p)
  else m ++ [(k, v)]

/-- Library merge of mergeVersionDetails (patchNotesManager.ts lines 287 to
311): all parent libraries are inserted into a Map keyed by the full library
name, then child libraries are inserted, overriding a parent entry only on an
identical full name; Array.from(map.values()) yields the result. -/
def mergeLibraries (parentLibs childLibs : List Library) : List Library :=
  let afterParent := parentLibs.foldl (fun m lib => mapSet m lib.name lib) []
  let afterChild := childLibs.foldl (fun m lib => mapSet m lib.name lib) afterParent
  afterChild.map Prod.snd

/-- Override for string fields guarded by JS truthiness: the child value wins
unless it is absent or the empty string. -/
def overrideString (child parent : Option String) : Option String :=
  match child with
  | some s => if s == "" then parent else some s
  | none => parent

/-- Override for object / number fields guarded by presence: the child value
wins whenever it is defined. -/
def overrideSome {α : Type} (child parent : Option α) : Option α :=
  match child with
  | some v => some v
  | none => parent

/-- Argument merge of mergeVersionDetails (lines 316 to 366): when the child
has an arguments object, the (possibly missing) parent lists are normalized to
arrays and the child lists are appended parent-then-child; when neither side
has arguments, an empty object is installed. -/
def mergeArguments (parentArguments childArguments : Option Arguments) : Option Arguments :=
  match childArguments with
  | none =>
    match parentArguments with
    | some a => some a
    | none => some { game := some [], jvm := some [] }
  | some ca =>
    let base :=
      match parentArguments with
      | some a => a
      | none => { game := some [], jvm := some [] }
    let game0 := base.game.getD []
    let jvm0 := base.jvm.getD []
    let game1 :=
      match ca.game with
      | some cg => game0 ++ cg
      | none => game0
    let jvm1 :=
      match ca.jvm with
      | some cj => jvm0 ++ cj
      | none => jvm0
    some { game := some game1, jvm := some jvm1 }

/-- mergeVersionDetails (patchNotesManager.ts lines 253 to 378): deep-clone
the parent, take the child's id, explicitly set inheritsFrom to the parent's
id (so the base client jar can be located later), override scalar fields the
child defines, merge libraries by full name, concatenate argument lists, and
override assetIndex/assets/downloads when present on the child. -/
def mergeVersionDetails (parentDetails childDetails : VersionDetails) : VersionDetails :=
  let merged := parentDetails
  let merged := { merged with
    id := childDetails.id,
    inheritsFrom := some parentDetails.id,
    time := overrideString childDetails.time merged.time,
    releaseTime := overrideString childDetails.releaseTime merged.releaseTime,
    type := overrideString childDetails.type merged.type,
    mainClass := overrideString childDetails.mainClass merged.mainClass,
    logging := overrideSome childDetails.logging merged.logging,
    minimumLauncherVersion :=
      overrideSome childDetails.minimumLauncherVersion merged.minimumLauncherVersion,
    complianceLevel := overrideSome childDetails.complianceLevel merged.complianceLevel }
  let merged :=
    match childDetails.libraries with
    | some childLibs =>
      { merged with libraries := some (mergeLibraries (merged.libraries.getD []) childLibs) }
    | none => merged
  let merged := { merged with arguments := mergeArguments merged.arguments childDetails.arguments }
  { merged with
    assetIndex := overrideSome childDetails.assetIndex merged.assetIndex,
    assets := overrideString childDetails.assets merged.assets,
    downloads := overrideSome childDetails.downloads merged.downloads }

/-- path.join for two segments (POSIX separator form). -/
def pathJoin (a b : String) : String := a ++ "/" ++ b

/-- path.basename: the component after the last separator. -/
def basename (p : String) : String := (splitOnStr p "/").getLastD p

/-- JS String.prototype.includes for a non-empty pattern. -/
def containsSubstr (s pat : String) : Bool := (splitOnStr s pat).length > 1

/-- JS String.prototype.replace with a string pattern: only the first
occurrence is replaced. -/
def replaceFirst (s pat rep : String) : String :=
  match splitOnStr s pat with
  | [] => s
  | [x] => x
  | x :: rest => x ++ rep ++ String.intercalate pat rest

/-- The per-library body of buildClasspath (launchManager.ts lines 681 to
787), reduced to the (key, path) pair it inserts into the dedup Map, or none
when the library is skipped: name with fewer than two parts, no resolvable
path (no artifact path and fewer than three name parts), native-looking jar
(name classifier, file-name classifier, or natives object), or a jar missing
on disk. -/
def classpathEntryFor (librariesPath : String) (fs : String → Bool) (lib : Library) :
    Option (String × String) :=
  let nameParts := splitOnStr lib.name ":"
  if nameParts.length < 2 then none
  else
    let groupId := (nameParts[0]?).getD ""
    let artifactId := (nameParts[1]?).getD ""
    let libraryKey := groupId ++ ":" ++ artifactId
    let artifactPath : Option String :=
      match lib.downloads with
      | some d =>
        match d.artifact with
        | some a =>
          match a.path with
          | some p => if p == "" then none else some p
          | none => none
        | none => none
      | none => none
    let libFullPath : Option String :=
      match artifactPath with
      | some ap => some (pathJoin librariesPath ap)
      | none =>
        if nameParts.length ≥ 3 then
          let version := (nameParts[2]?).getD ""
          let groupIdPath := replaceAll groupId "." "/"
          let versionPart :=
            if nameParts.length > 3 then
              let classifierInName := String.intercalate "-" (nameParts.drop 3)
              if startsWithStr classifierInName "natives-" then version
              else version ++ "-" ++ classifierInName
            else version
          let libFileName := artifactId ++ "-" ++ versionPart ++ ".jar"
          some (pathJoin librariesPath
            (pathJoin (pathJoin (pathJoin groupIdPath artifactId) version) libFileName))
        else none
    match libFullPath with
    | none => none
    | some fp =>
      let artifactFileName := basename fp
      let isNativeJarByName := containsSubstr lib.name ":natives-"
      let isNativeJarByFileName := containsSubstr artifactFileName "-natives-"
      let hasNativesObject := lib.natives.isSome
      let isLikelyNativeOnlyJar := isNativeJarByName || isNativeJarByFileName || hasNativesObject
      if !isLikelyNativeOnlyJar && fs fp then some (libraryKey, fp) else none

/-- The libraryPathMap built by buildClasspath: a fold of Map.set over the
entries the per-library body produces, later entries overriding the value of
an earlier identical groupId:artifactId key. -/
def classpathLibraryMap (libs : List Library) (librariesPath : String) (fs : String → Bool) :
    List (String × String) :=
  libs.foldl
    (fun m lib =>
      match classpathEntryFor librariesPath fs lib with
      | some kv => mapSet m kv.1 kv.2
      | none => m) []

/-- The base client archive path: versionsPath/<baseVersionId>/<baseVersionId>.jar,
with baseVersionId = inheritsFrom || id (JS truthiness, so an empty
inheritsFrom falls back to id). -/
def clientJarPathOf (versionDetails : VersionDetails) (versionsPath : String) : String :=
  let baseVersionId :=
    match versionDetails.inheritsFrom with
    | some s => if s == "" then versionDetails.id else s
    | none => versionDetails.id
  pathJoin (pathJoin versionsPath baseVersionId) (baseVersionId ++ ".jar")

/-- finalClassPathEntries of buildClasspath (launchManager.ts lines 789 to
816): the Map values in insertion order, with the base client jar appended
last when it is not already present AND it exists on disk (a missing client
jar is only warned about, not appended). -/
def finalClassPathEntries (versionDetails : VersionDetails) (librariesPath versionsPath : String)
    (fs : String → Bool) : List String :=
  let entries :=
    (classpathLibraryMap (versionDetails.libraries.getD []) librariesPath fs).map Prod.snd
  let clientJarPath := clientJarPathOf versionDetails versionsPath
  if !(entries.contains clientJarPath) then
    if fs clientJarPath then entries ++ [clientJarPath] else entries
  else entries

/-- buildClasspath: the entries joined with the platform separator. -/
def buildClasspath (versionDetails : VersionDetails) (librariesPath versionsPath : String)
    (fs : String → Bool) (isWin32 : Bool) : String :=
  String.intercalate (if isWin32 then ";" else ":")
    (finalClassPathEntries versionDetails librariesPath versionsPath fs)

/-- What happened to one library inside the extractNatives loop. -/
structure NativeOutcome where
  rulesAllowed : Bool
  primaryMatched : Bool
  primaryExtracted : Bool
  fallbackProcessed : Bool
  fallbackExtracted : Bool
  deriving DecidableEq, Repr

/-- The architecture token tables substituted for the arch placeholder in a
natives classifier template (launchManager.ts lines 424 to 436). -/
def archTokenFor (nativeOsName currentArch : String) : String :=
  if nativeOsName == "linux" then
    if currentArch == "x64" then "x86_64"
    else if currentArch == "arm64" then "aarch_64"
    else currentArch
  else if nativeOsName == "windows" then
    if currentArch == "x64" then "64"
    else if currentArch == "ia32" then "x86"
    else currentArch
  else if nativeOsName == "osx" then
    if currentArch == "x64" then "x86_64"
    else currentArch
  else currentArch

/-- lib.natives[nativeOsName]: the per-OS classifier template, with JS
truthiness (an empty template counts as absent). -/
def nativesFor (n : Natives) (osName : String) : Option String :=
  let raw :=
    if osName == "windows" then n.windows
    else if osName == "osx" then n.osx
    else if osName == "linux" then n.linux
    else none
  match raw with
  | some s => if s == "" then none else some s
  | none => none

/-- Tail of the per-library extractNatives body (launchManager.ts lines 410
to 481): the fallback is entered only when extractedThisLib is still false
(path (a) did not successfully extract) and the library carries both a
natives template for this OS and classifier downloads; the arch placeholder
in the template is substituted from the platform token tables and the
classifier-specific artifact is extracted when its jar exists on disk. -/
def nativeOutcomeTail (nativeOsName currentArch librariesPath : String) (fs : String → Bool)
    (primaryConditionMet primaryExtracted : Bool)
    (fallbackCandidate : Option (String × List (String × DownloadDetails))) : NativeOutcome :=
  let fallbackData := if primaryExtracted then none else fallbackCandidate
  match fallbackData with
  | none =>
    { rulesAllowed := true, primaryMatched := primaryConditionMet,
      primaryExtracted := primaryExtracted, fallbackProcessed := false,
      fallbackExtracted := false }
  | some (archPlaceholder, cls) =>
    let nativeClassifierKey :=
      if containsSubstr archPlaceholder "$\x7barch\x7d" then
        replaceFirst archPlaceholder "$\x7barch\x7d" (archTokenFor nativeOsName currentArch)
      else archPlaceholder
    match cls.lookup nativeClassifierKey with
    | some nativeArtifact =>
      { rulesAllowed := true, primaryMatched := primaryConditionMet,
        primaryExtracted := primaryExtracted, fallbackProcessed := true,
        fallbackExtracted := fs (pathJoin librariesPath (nativeArtifact.path.getD "")) }
    | none =>
      { rulesAllowed := true, primaryMatched := primaryConditionMet,
        primaryExtracted := primaryExtracted, fallbackProcessed := false,
        fallbackExtracted := false }

/-- Per-library body of the extractNatives loop (launchManager.ts lines 264
to 482).  Rules are evaluated against the concrete runtime context; detection
path (a) fires when the name carries a classifier starting with the current
platform's natives prefix (macos and osx both accepted on osx) and extracts
the primary artifact when its jar exists on disk; the fallback path (b) is
handled by nativeOutcomeTail.  Extraction success is modelled as the jar
being present on disk. -/
def extractNativesLib (nativeOsName currentArch : String) (osVersion : Option String)
    (librariesPath : String) (fs : String → Bool) (lib : Library) : NativeOutcome :=
  let ruleContextForExtraction : RuleContext :=
    { os := { name := nativeOsName, arch := currentArch, version := osVersion }, features := [] }
  let sys : SysInfo := { platform := nativeOsName, arch := currentArch }
  let allowLibByRules :=
    match lib.rules with
    | some rs => checkRules rs (some ruleContextForExtraction) sys
    | none => true
  if !allowLibByRules then
    { rulesAllowed := false, primaryMatched := false, primaryExtracted := false,
      fallbackProcessed := false, fallbackExtracted := false }
  else
    let nameParts := splitOnStr lib.name ":"
    let classifier : Option String :=
      if nameParts.length > 3 then some (String.intercalate "-" (nameParts.drop 3)) else none
    let primaryConditionMet :=
      match classifier with
      | none => false
      | some c =>
        if nativeOsName == "osx" then
          startsWithStr c "natives-macos" || startsWithStr c "natives-osx"
        else startsWithStr c ("natives-" ++ nativeOsName)
    let primaryExtracted :=
      if primaryConditionMet then
        match lib.downloads with
        | some d =>
          match d.artifact with
          | some a =>
            match a.path with
            | some ap => if ap == "" then false else fs (pathJoin librariesPath ap)
            | none => false
          | none => false
        | none => false
      else false
    let fallbackCandidate : Option (String × List (String × DownloadDetails)) :=
      match lib.natives with
      | none => none
      | some n =>
        match nativesFor n nativeOsName with
        | none => none
        | some archPlaceholder =>
          match lib.downloads with
          | some d =>
            match d.classifiers with
            | some cls => some (archPlaceholder, cls)
            | none => none
          | none => none
    nativeOutcomeTail nativeOsName currentArch librariesPath fs
      primaryConditionMet primaryExtracted fallbackCandidate

/-- DownloadStatus enum from types/DownloadStatus.ts. -/
inductive DownloadStatus
  | QUEUED
  | DOWNLOADING
  | VALIDATING
  | VALIDATED
  | DOWNLOADED_NO_CHECKSUM
  | ERROR
  | VALIDATION_FAILED
  deriving DecidableEq, Repr

/-- Result of one network attempt as seen by the downloadFile control flow:
either the destination now holds content with the given sha1, or the attempt
failed (non-200 status, request/stream error, or the 30s timeout) with a
message. -/
inductive NetResult
  | ok (hash : String)
  | err (msg : String)
  deriving DecidableEq, Repr

/-- DownloadResult from downloadManager.ts. -/
structure DownloadResult where
  success : Bool
  validationPassed : Bool
  error : Option String
  deriving DecidableEq, Repr

/-- Observable trace of one downloadFile run: the returned result, the number
of the attempt that returned, the number of network requests issued, the
backoff delays (ms) slept between attempts, the status events emitted, and
the final destination content hash (none = file absent). -/
structure DownloadTrace where
  result : DownloadResult
  attempts : Nat
  requests : Nat
  delays : List Nat
  statuses : List DownloadStatus
  dest : Option String
  deriving DecidableEq, Repr

/-- MAX_ATTEMPTS from downloadManager.ts line 89. -/
def MAX_ATTEMPTS : Nat := 3

/-- The mismatch error message recorded on a failed post-download validation
(downloadManager.ts lines 234 to 236). -/
def sha1MismatchMsg (expected got : String) (attempt : Nat) : String :=
  "SHA1 mismatch (Expected: " ++ expected ++ ", Got: " ++ got ++ ") on attempt "
    ++ toString attempt

/-- The error recorded for a failed attempt: the transport message, or the
mismatch message when the fetch succeeded but the hash differed. -/
def attemptErrorMsg (sha1 : Option String) (r : NetResult) (attempt : Nat) : String :=
  match r with
  | .err m => m
  | .ok c =>
    match sha1 with
    | some h => sha1MismatchMsg h c attempt
    | none => ""

/-- The retry loop of downloadFile (downloadManager.ts lines 92 to 302),
fuel = MAX_ATTEMPTS - attempts.  Each iteration: pre-validate an existing
destination when a sha1 is expected (match short-circuits to VALIDATED with
no network request); otherwise issue one network request; a transport error
either returns the failed result (attempts exhausted, ERROR status) or backs
off 1000 * 2 ^ (attempts - 1) ms and retries (the request-error handler
unlinks the partial file); a successful fetch is post-validated: hash match
returns VALIDATED, mismatch deletes the file and retries unless this was the
final attempt, in which case the result carries success = true with
validationPassed = false and the mismatch error (line 272 returns it). -/
def downloadGo (sha1 : Option String) (net : Nat → NetResult) :
    Nat → Nat → Option String → Nat → List Nat → List DownloadStatus → DownloadTrace
  | 0, attempts, dest, requests, delays, statuses =>
    { result := { success := false, validationPassed := false,
                  error := some "Exited download loop unexpectedly after all attempts." },
      attempts := attempts, requests := requests, delays := delays,
      statuses := statuses ++ [DownloadStatus.ERROR], dest := dest }
  | fuel + 1, attempts0, dest, requests, delays, statuses =>
    let attempts := attempts0 + 1
    let preCheck := sha1.isSome && dest.isSome
    let preHit :=
      match sha1, dest with
      | some h, some d => d == h
      | _, _ => false
    let statuses := statuses ++ (if preCheck then [DownloadStatus.VALIDATING] else [])
    if preHit then
      { result := { success := true, validationPassed := true, error := none },
        attempts := attempts, requests := requests, delays := delays,
        statuses := statuses ++ [DownloadStatus.VALIDATED], dest := dest }
    else
      let statuses := statuses ++ [DownloadStatus.DOWNLOADING]
      let requests := requests + 1
      match net attempts with
      | .err m =>
        if MAX_ATTEMPTS ≤ attempts then
          { result := { success := false, validationPassed := false, error := some m },
            attempts := attempts, requests := requests, delays := delays,
            statuses := statuses ++ [DownloadStatus.ERROR], dest := none }
        else
          downloadGo sha1 net fuel attempts none requests
            (delays ++ [1000 * 2 ^ (attempts - 1)]) statuses
      | .ok c =>
        match sha1 with
        | none =>
          { result := { success := true, validationPassed := true, error := none },
            attempts := attempts, requests := requests, delays := delays,
            statuses := statuses ++ [DownloadStatus.DOWNLOADED_NO_CHECKSUM], dest := some c }
        | some h =>
          let statuses := statuses ++ [DownloadStatus.VALIDATING]
          if c == h then
            { result := { success := true, validationPassed := true, error := none },
              attempts := attempts, requests := requests, delays := delays,
              statuses := statuses ++ [DownloadStatus.VALIDATED], dest := some c }
          else
            let msg := sha1MismatchMsg h c attempts
            let statuses := statuses ++ [DownloadStatus.VALIDATION_FAILED]
            if attempts < MAX_ATTEMPTS then
              downloadGo sha1 net fuel attempts none requests
                (delays ++ [1000 * 2 ^ (attempts - 1)]) statuses
            else
              { result := { success := true, validationPassed := false, error := some msg },
                attempts := attempts, requests := requests, delays := delays,
                statuses := statuses, dest := some c }

/-- downloadFile (downloadManager.ts lines 53 to 313) as a function of the
expected sha1, the per-attempt network behaviour, and the hash of any content
already at the destination. -/
def downloadFile (sha1 : Option String) (net : Nat → NetResult) (dest0 : Option String) :
    DownloadTrace :=
  downloadGo sha1 net MAX_ATTEMPTS 0 dest0 0 [] []

/-- Suspension state of one execute() invocation inside downloadMultipleFiles:
awaiting Promise.race over the listed in-flight task promises, or awaiting
Promise.all over them before returning. -/
inductive LoopSt
  | race (subscribed : List Nat)
  | allOf (subscribed : List Nat)
  deriving DecidableEq, Repr

/-- State of the downloadMultipleFiles pool: the shared queue, the shared
activeDownloads array, the suspended execute() invocations in subscription
order, the log of task starts, and the maximum number of simultaneously
in-flight downloads observed. -/
structure PoolState where
  queue : List Nat
  active : List Nat
  loops : List LoopSt
  started : List Nat
  maxInFlight : Nat
  deriving DecidableEq, Repr

/-- The synchronous segment of one execute() invocation (downloadManager.ts
lines 338 to 374), run until it suspends on an await or finishes: repeatedly
shift a task off the queue and start its download, suspending on
Promise.race(activeDownloads) whenever the pool is at or over the limit after
a start; once the queue is empty, await Promise.all over the remaining active
downloads (finishing immediately when none are active). -/
def runLoop (limit : Nat) : List Nat → PoolState → PoolState × Option LoopSt
  | [], st =>
    if st.active.isEmpty then ({ st with queue := [] }, none)
    else ({ st with queue := [] }, some (LoopSt.allOf st.active))
  | t :: rest, st =>
    let active := st.active ++ [t]
    let st := { st with
      queue := rest,
      active := active,
      started := st.started ++ [t],
      maxInFlight := max st.maxInFlight active.length }
    if limit ≤ active.length then (st, some (LoopSt.race active))
    else runLoop limit rest st

/-- Resume, in subscription order, every suspended invocation whose awaited
promise set contains the completed task t; a resumed race continues the while
loop (runLoop) and may suspend again (its new subscription is later than all
existing ones, so re-suspensions are appended after the kept loops); a
Promise.all waiter drops t from its set and finishes when the set empties. -/
def resumeLoops (limit : Nat) (t : Nat) :
    List LoopSt → PoolState → List LoopSt → List LoopSt → PoolState
  | [], st, kept, resuspended => { st with loops := kept ++ resuspended }
  | l :: rest, st, kept, resuspended =>
    match l with
    | LoopSt.race subs =>
      if subs.contains t then
        match runLoop limit st.queue st with
        | (st, some s) => resumeLoops limit t rest st kept (resuspended ++ [s])
        | (st, none) => resumeLoops limit t rest st kept resuspended
      else resumeLoops limit t rest st (kept ++ [l]) resuspended
    | LoopSt.allOf subs =>
      let subs := subs.erase t
      if subs.isEmpty then resumeLoops limit t rest st kept resuspended
      else resumeLoops limit t rest st (kept ++ [LoopSt.allOf subs]) resuspended

/-- The full microtask cascade when in-flight task t completes: the promise's
own then-callback runs first (registered at start time: it removes t from
activeDownloads and, when the pool has spare room and the queue is non-empty,
synchronously runs a fresh execute() invocation, downloadManager.ts lines 346
to 365); afterwards the suspended awaits subscribed to t resume in
subscription order. -/
def onComplete (limit : Nat) (t : Nat) (st : PoolState) : PoolState :=
  if st.active.contains t then
    let st := { st with active := st.active.erase t }
    let spawnStep : PoolState × List LoopSt :=
      if st.active.length < limit && !st.queue.isEmpty then
        match runLoop limit st.queue st with
        | (st1, some s) => (st1, [s])
        | (st1, none) => (st1, [])
      else (st, [])
    let st1 := spawnStep.1
    let toProcess := st1.loops ++ spawnStep.2
    resumeLoops limit t toProcess { st1 with loops := [] } [] []
  else st

/-- downloadMultipleFiles (downloadManager.ts lines 322 to 382) under an
explicit completion schedule: the initial execute() invocation drains the
queue up to the limit, then tasks complete in the scheduled order (network
completions are macrotasks, so the microtask cascade of each completion runs
to quiescence before the next completion). -/
def runPool (tasks : List Nat) (limit : Nat) (completionOrder : List Nat) : PoolState :=
  let st0 : PoolState :=
    { queue := tasks, active := [], loops := [], started := [], maxInFlight := 0 }
  let st :=
    match runLoop limit tasks st0 with
    | (st, some s) => { st with loops := st.loops ++ [s] }
    | (st, none) => st
  completionOrder.foldl (fun st t => onComplete limit t st) st

/-- Externally observable side effects of launchVersion. -/
inductive Effect
  | statusEvent (status : String) (message : String)
  | fsWrite (dest : String)
  | netRequest (url : String)
  | spawnProc (mainClass : String)
  deriving DecidableEq, Repr

/-- The launch supervisor's module-level runningProcess slot. -/
structure LaunchState where
  runningProcess : Option Nat
  deriving DecidableEq, Repr

/-- The value launchVersion resolves with. -/
structure LaunchResult where
  success : Bool
  error : Option String
  deriving DecidableEq, Repr

/-- DownloadTask record from downloadManager.ts. -/
structure DownloadTask where
  url : String
  destination : String
  sha1 : Option String
  size : Option Nat
  label : Option String
  deriving DecidableEq, Repr

/-- getRequiredInitialDownloads (launchManager.ts lines 515 to 628): client
jar, library artifacts passing the permissive download-time rule check (only
an os-bearing disallow rule excludes a library), the asset index, and the
logging config file when all its fields are present. -/
def getRequiredInitialDownloads (versionDetails : VersionDetails)
    (versionPath librariesPath assetsPath : String) : List DownloadTask :=
  let clientTasks : List DownloadTask :=
    match versionDetails.downloads with
    | some ds =>
      match ds.client with
      | some c =>
        [{ url := c.url, destination := pathJoin versionPath (versionDetails.id ++ ".jar"),
           sha1 := some c.sha1, size := some c.size, label := some (versionDetails.id ++ ".jar") }]
      | none => []
    | none => []
  let libTasks : List DownloadTask :=
    (versionDetails.libraries.getD []).foldl
      (fun acc lib =>
        let allowDownloadBasedOnSimpleRules :=
          match lib.rules with
          | some rs => rs.all (fun rule => !(rule.os.isSome && rule.action == Action.disallow))
          | none => true
        if !allowDownloadBasedOnSimpleRules then acc
        else
          match lib.downloads with
          | some d =>
            match d.artifact with
            | some a =>
              match a.path with
              | some p =>
                if p == "" then acc
                else
                  acc ++ [{ url := a.url, destination := pathJoin librariesPath p,
                            sha1 := some a.sha1, size := some a.size,
                            label := some (basename p) }]
              | none => acc
            | none => acc
          | none => acc)
      []
  let assetIndexTasks : List DownloadTask :=
    match versionDetails.assetIndex with
    | some ai =>
      if ai.url == "" then []
      else
        [{ url := ai.url,
           destination := pathJoin (pathJoin assetsPath "indexes") (ai.id ++ ".json"),
           sha1 := some ai.sha1, size := some ai.size,
           label := some ("Asset Index (" ++ ai.id ++ ")") }]
    | none => []
  let loggingTasks : List DownloadTask :=
    match versionDetails.logging with
    | some lg =>
      match lg.client with
      | some lc =>
        match lc.file with
        | some f =>
          match f.id, f.url, f.sha1, f.size with
          | some fid, some furl, some fsha, some fsize =>
            if fid == "" || furl == "" || fsha == "" then []
            else
              [{ url := furl,
                 destination := pathJoin (pathJoin assetsPath "logging") fid,
                 sha1 := some fsha, size := some fsize,
                 label := some ("Log Config (" ++ fid ++ ")") }]
          | _, _, _, _ => []
        | none => []
      | none => []
    | none => []
  clientTasks ++ libTasks ++ assetIndexTasks ++ loggingTasks

/-- Environment for the post-guard pipeline of launchVersion: the asset tasks
enumerated from the downloaded asset index, and the pid of the spawned
process. -/
structure LaunchEnv where
  assetTasks : List DownloadTask
  newPid : Nat
  deriving DecidableEq, Repr

/-- launchVersion (launchManager.ts lines 827 to 1371), abstracted to its
guard and observable effects.  When a process is already tracked the call
runs only lines 845 to 852: a warning status event is sent and the rejection
value is returned, with no filesystem write, no network request, no spawn,
and the tracked process untouched.  Otherwise the pipeline runs: initial
downloads, asset downloads, native extraction, classpath assembly and the
process spawn, summarized here by their principal effects. -/
def launchVersion (versionDetails : VersionDetails)
    (versionPath librariesPath assetsPath : String)
    (st : LaunchState) (env : LaunchEnv) : LaunchState × LaunchResult × List Effect :=
  if st.runningProcess.isSome then
    (st, { success := false, error := some "Game already running" },
     [Effect.statusEvent "error" "Game already running"])
  else
    let initialTasks :=
      getRequiredInitialDownloads versionDetails versionPath librariesPath assetsPath
    let dlEffects :=
      (initialTasks ++ env.assetTasks).foldl
        (fun acc t => acc ++ [Effect.netRequest t.url, Effect.fsWrite t.destination]) []
    let effects :=
      [Effect.statusEvent "preparing" "Identifying files..."] ++ dlEffects ++
        [Effect.statusEvent "launching" "Starting Java process...",
         Effect.spawnProc (versionDetails.mainClass.getD "")]
    ({ runningProcess := some env.newPid }, { success := true, error := none }, effects)

/-! Helper lemmas about the Map.set model and the argument folds. -/

theorem map_replace_keys {α : Type} (k : String) (v : α) :
    ∀ m : List (String × α),
      ((m.map (fun p => if p.1 == k then (k, v) else p)).map Prod.fst) = m.map Prod.fst
  | [] => rfl
  | p :: t => by
    by_cases h : p.1 = k
    · simp only [List.map_cons, h, beq_self_eq_true, if_true]
      simpa using map_replace_keys k v t
    · have hb : (p.1 == k) = false := beq_eq_false_iff_ne.mpr h
      simp only [List.map_cons, hb, Bool.false_eq_true, if_false]
      simpa using map_replace_keys k v t

theorem mapSet_keys {α : Type} (m : List (String × α)) (k : String) (v : α) :
    (mapSet m k v).map Prod.fst =
      if m.any (fun p => p.1 == k) then m.map Prod.fst else m.map Prod.fst ++ [k] := by
  unfold mapSet
  split
  · exact map_replace_keys k v m
  · simp

theorem mapSet_keys_nodup {α : Type} (m : List (String × α)) (k : String) (v : α)
    (h : (m.map Prod.fst).Nodup) : ((mapSet m k v).map Prod.fst).Nodup := by
  rw [mapSet_keys]
  split
  · exact h
  · rename_i hany
    have hk : k ∉ m.map Prod.fst := by
      intro hmem
      rcases List.mem_map.mp hmem with ⟨p, hp, hpk⟩
      have : m.any (fun p => p.1 == k) = true :=
        List.any_eq_true.mpr ⟨p, hp, by simp [hpk]⟩
      simp [this] at hany
    simp only [List.nodup_append, List.nodup_singleton, List.disjoint_singleton]
    exact ⟨h, by simp, hk⟩

theorem lookup_cons {α : Type} (k a : String) (b : α) (t : List (String × α)) :
    List.lookup k ((a, b) :: t) = if k == a then some b else t.lookup k := by
  cases hka : k == a <;> simp [List.lookup, hka]

theorem lookup_map_replace_ne {α : Type} (k0 k : String) (v : α) (hne : k ≠ k0) :
    ∀ t : List (String × α),
      (t.map (fun p => if p.1 == k0 then (k0, v) else p)).lookup k = t.lookup k
  | [] => rfl
  | ⟨a, b⟩ :: t => by
    have hk1 : (k == k0) = false := beq_eq_false_iff_ne.mpr hne
    rw [List.map_cons]
    by_cases h : a = k0
    · have hk2 : (k == a) = false := beq_eq_false_iff_ne.mpr (h ▸ hne)
      rw [if_pos (beq_iff_eq.mpr h), lookup_cons, lookup_cons, if_neg (by simp [hk1]),
        if_neg (by simp [hk2])]
      exact lookup_map_replace_ne k0 k v hne t
    · have hb : ((⟨a, b⟩ : String × α).1 == k0) = false := beq_eq_false_iff_ne.mpr h
      rw [if_neg (by simp [hb]), lookup_cons, lookup_cons]
      by_cases hq : k = a
      · rw [if_pos (beq_iff_eq.mpr hq), if_pos (beq_iff_eq.mpr hq)]
      · rw [if_neg (by simp [beq_eq_false_iff_ne.mpr hq]),
          if_neg (by simp [beq_eq_false_iff_ne.mpr hq])]
        exact lookup_map_replace_ne k0 k v hne t

theorem lookup_map_replace_found {α : Type} (k0 : String) (v : α) :
    ∀ m : List (String × α), m.any (fun q => q.1 == k0) = true →
      (m.map (fun p => if p.1 == k0 then (k0, v) else p)).lookup k0 = some v
  | [], h => by simp at h
  | ⟨a, b⟩ :: t, h => by
    rw [List.map_cons]
    by_cases hq : a = k0
    · rw [if_pos (beq_iff_eq.mpr hq), lookup_cons, if_pos (by simp)]
    · have hb : ((⟨a, b⟩ : String × α).1 == k0) = false := beq_eq_false_iff_ne.mpr hq
      have ht : t.any (fun q => q.1 == k0) = true := by
        simp only [List.any_cons, hb, Bool.false_or] at h
        exact h
      rw [if_neg (by simp [hb]), lookup_cons,
        if_neg (by simp [beq_eq_false_iff_ne.mpr (Ne.symm hq)])]
      exact lookup_map_replace_found k0 v t ht

theorem lookup_append {α : Type} (k : String) :
    ∀ xs ys : List (String × α), (xs ++ ys).lookup k = (xs.lookup k).or (ys.lookup k)
  | [], ys => by simp [List.lookup]
  | ⟨a, b⟩ :: xs, ys => by
    rw [List.cons_append, lookup_cons, lookup_cons]
    by_cases hx : k = a
    · rw [if_pos (beq_iff_eq.mpr hx), if_pos (beq_iff_eq.mpr hx)]
      rfl
    · rw [if_neg (by simp [beq_eq_false_iff_ne.mpr hx]),
        if_neg (by simp [beq_eq_false_iff_ne.mpr hx])]
      exact lookup_append k xs ys

theorem lookup_none_of_any_false {α : Type} (k : String) :
    ∀ m : List (String × α), m.any (fun q => q.1 == k) = false → m.lookup k = none
  | [], _ => rfl
  | ⟨a, b⟩ :: t, h => by
    simp only [List.any_cons, Bool.or_eq_false_iff] at h
    have hb2 : (k == a) = false := by
      rcases h with ⟨h1, _⟩
      exact beq_eq_false_iff_ne.mpr (fun he => by simp [he.symm] at h1)
    rw [lookup_cons, if_neg (by simp [hb2])]
    exact lookup_none_of_any_false k t h.2

theorem lookup_mapSet {α : Type} (k0 k : String) (v : α) (m : List (String × α)) :
    (mapSet m k0 v).lookup k = if k == k0 then some v else m.lookup k := by
  unfold mapSet
  by_cases hany : (m.any (fun q => q.1 == k0)) = true
  · rw [if_pos hany]
    by_cases hk : k = k0
    · subst hk
      simp only [beq_self_eq_true, if_true]
      exact lookup_map_replace_found k v m hany
    · have hb : (k == k0) = false := beq_eq_false_iff_ne.mpr hk
      simp only [hb, Bool.false_eq_true, if_false]
      exact lookup_map_replace_ne k0 k v hk m
  · rw [if_neg hany]
    rw [lookup_append]
    by_cases hk : k = k0
    · subst hk
      have hfalse : m.any (fun q => q.1 == k) = false := by
        cases hcase : m.any (fun q => q.1 == k)
        · rfl
        · exact absurd hcase hany
      have : m.lookup k = none := lookup_none_of_any_false k m hfalse
      simp [this, List.lookup]
    · have hb : (k == k0) = false := beq_eq_false_iff_ne.mpr hk
      simp [List.lookup, hb]

theorem lookup_mapSet_foldl {α : Type} (k : String) :
    ∀ (E : List (String × α)) (m : List (String × α)),
      (E.foldl (fun m p => mapSet m p.1 p.2) m).lookup k =
        (E.reverse.lookup k).or (m.lookup k)
  | [], m => by simp
  | ⟨a, b⟩ :: E, m => by
    rw [List.foldl_cons, lookup_mapSet_foldl k E (mapSet m a b),
      List.reverse_cons, lookup_append, lookup_mapSet, lookup_cons]
    by_cases hk : k = a
    · rw [if_pos (beq_iff_eq.mpr hk), if_pos (beq_iff_eq.mpr hk)]
      cases E.reverse.lookup k <;> simp [Option.or]
    · rw [if_neg (by simp [beq_eq_false_iff_ne.mpr hk]),
        if_neg (by simp [beq_eq_false_iff_ne.mpr hk])]
      cases E.reverse.lookup k <;> simp [Option.or, List.lookup]

theorem classpathLibraryMap_eq_foldl_aux (lr : String) (fs : String → Bool) :
    ∀ (libs : List Library) (m : List (String × String)),
      libs.foldl
        (fun m lib =>
          match classpathEntryFor lr fs lib with
          | some kv => mapSet m kv.1 kv.2
          | none => m) m =
      (libs.filterMap (classpathEntryFor lr fs)).foldl (fun m p => mapSet m p.1 p.2) m
  | [], _ => rfl
  | lib :: libs, m => by
    cases h : classpathEntryFor lr fs lib with
    | none =>
      simp only [List.foldl_cons, List.filterMap_cons, h]
      exact classpathLibraryMap_eq_foldl_aux lr fs libs m
    | some kv =>
      simp only [List.foldl_cons, List.filterMap_cons, h]
      exact classpathLibraryMap_eq_foldl_aux lr fs libs (mapSet m kv.1 kv.2)

theorem classpathLibraryMap_eq_foldl (libs : List Library) (lr : String) (fs : String → Bool) :
    classpathLibraryMap libs lr fs =
      (libs.filterMap (classpathEntryFor lr fs)).foldl (fun m p => mapSet m p.1 p.2) [] :=
  classpathLibraryMap_eq_foldl_aux lr fs libs []

theorem mapSet_foldl_keys_nodup {α : Type} :
    ∀ (E : List (String × α)) (m : List (String × α)),
      (m.map Prod.fst).Nodup → ((E.foldl (fun m p => mapSet m p.1 p.2) m).map Prod.fst).Nodup
  | [], _, h => h
  | p :: E, m, h =>
    mapSet_foldl_keys_nodup E (mapSet m p.1 p.2) (mapSet_keys_nodup m p.1 p.2 h)

theorem processArguments_acc (vars : List (String × String)) (sys : SysInfo) :
    ∀ (args : List ArgEntry) (acc : List String),
      args.foldl (fun processed arg => processed ++ argEntryOutput vars sys arg) acc =
        acc ++ processArguments args vars sys
  | [], acc => by simp [processArguments]
  | a :: args, acc => by
    rw [List.foldl_cons, processArguments_acc vars sys args (acc ++ argEntryOutput vars sys a)]
    unfold processArguments
    rw [List.foldl_cons]
    rw [processArguments_acc vars sys args (List.nil ++ argEntryOutput vars sys a)]
    simp only [List.nil_append, List.append_assoc]
    rfl

theorem processArguments_append (vars : List (String × String)) (sys : SysInfo)
    (xs ys : List ArgEntry) :
    processArguments (xs ++ ys) vars sys =
      processArguments xs vars sys ++ processArguments ys vars sys := by
  unfold processArguments
  rw [List.foldl_append]
  exact processArguments_acc vars sys ys _

/-! Concrete fixtures used by witnesses and counterexamples. -/

/-- An empty version definition used as a base for concrete fixtures. -/
def baseVD : VersionDetails :=
  { id := "", inheritsFrom := none, time := none, releaseTime := none, type := none,
    mainClass := none, logging := none, minimumLauncherVersion := none,
    complianceLevel := none, libraries := none, arguments := none,
    assetIndex := none, assets := none, downloads := none }

/-- A plain library with the given full name, artifact url and path. -/
def plainLib (n u pth : String) : Library :=
  let art : DownloadDetails := { sha1 := u, size := 1, url := u, path := some pth }
  { downloads := some { artifact := some art, classifiers := none },
    name := n, rules := none, natives := none, extract := none }

def libA1 : Library := plainLib "org.a:A:1" "uA1" "a1.jar"

def libB1 : Library := plainLib "org.b:B" "uB1" "b1.jar"

def libB2 : Library := plainLib "org.b:B" "uB2" "b2.jar"

def libC1 : Library := plainLib "org.c:C:1" "uC1" "c1.jar"

def parentFixture : VersionDetails :=
  { baseVD with
    id := "1.20.1",
    mainClass := some "net.minecraft.client.main.Main",
    libraries := some [libA1, libB1],
    arguments := some { game := some [], jvm := some [ArgEntry.str "-X"] } }

def childFixture : VersionDetails :=
  { baseVD with
    id := "1.20.1-modded",
    inheritsFrom := some "1.20.1",
    libraries := some [libB2, libC1],
    arguments := some { game := some [], jvm := some [ArgEntry.str "-Y"] } }

/-! Claim theorems. -/

/-- C1: merging a child definition onto a parent combines the libraries
through a map keyed by library name: with parent libraries A1, B1 and child
libraries B2, C1, where B1 and B2 share their key (full library name) and
all other keys are pairwise distinct, the merged library list is exactly
[A1, B2, C1] - the child's entry wins on the shared key and the union is
kept otherwise; and with parent jvm arguments ["-X"] and child jvm arguments
["-Y"], the merged jvm list is exactly ["-X", "-Y"] in that order. -/
theorem mergeVersionDetails_child_wins_union_jvm_concat
    (p c : VersionDetails) (A1 B1 B2 C1 : Library) (pa ca : Arguments)
    (hpl : p.libraries = some [A1, B1])
    (hcl : c.libraries = some [B2, C1])
    (hkey : B1.name = B2.name)
    (hab : A1.name ≠ B1.name)
    (hac : A1.name ≠ C1.name)
    (hbc : B2.name ≠ C1.name)
    (hpa : p.arguments = some pa)
    (hca : c.arguments = some ca)
    (hpj : pa.jvm = some [ArgEntry.str "-X"])
    (hcj : ca.jvm = some [ArgEntry.str "-Y"]) :
    (mergeVersionDetails p c).libraries = some [A1, B2, C1] ∧
    (mergeVersionDetails p c).arguments.map Arguments.jvm =
      some (some [ArgEntry.str "-X", ArgEntry.str "-Y"]) := by
  have hab2 : A1.name ≠ B2.name := hkey ▸ hab
  constructor
  · simp [mergeVersionDetails, mergeLibraries, mapSet, hpl, hcl,
      hkey, hab, hab2, hac, hbc]
  · simp [mergeVersionDetails, mergeArguments, hpa, hca, hpj, hcj, hcl]

/-- Witness for C1 at a concrete parent/child pair. -/
theorem mergeVersionDetails_child_wins_union_jvm_concat_witness :
    (mergeVersionDetails parentFixture childFixture).libraries = some [libA1, libB2, libC1] ∧
    (mergeVersionDetails parentFixture childFixture).arguments.map Arguments.jvm =
      some (some [ArgEntry.str "-X", ArgEntry.str "-Y"]) :=
  mergeVersionDetails_child_wins_union_jvm_concat parentFixture childFixture
    libA1 libB1 libB2 libC1
    { game := some [], jvm := some [ArgEntry.str "-X"] }
    { game := some [], jvm := some [ArgEntry.str "-Y"] }
    rfl rfl rfl (by decide) (by decide) (by decide) rfl rfl rfl rfl

/-- C2 counterexample: merging a child onto its fully resolved parent does
NOT erase inheritsFrom; mergeVersionDetails explicitly sets it to the
parent's id (patchNotesManager.ts line 273), so the resolved fixture still
has inheritsFrom present. -/
theorem resolved_definition_keeps_inheritsFrom_counterexample :
    (mergeVersionDetails parentFixture childFixture).inheritsFrom ≠ none := by
  decide

/-- C2 amended: a definition resolved by merging carries inheritsFrom equal
to the parent's id (the code relies on it: buildClasspath derives the base
client jar location from inheritsFrom || id). -/
theorem mergeVersionDetails_sets_inheritsFrom (p c : VersionDetails) :
    (mergeVersionDetails p c).inheritsFrom = some p.id := by
  cases hcl : c.libraries <;> simp [mergeVersionDetails, hcl]

/-- A network that fails every attempt with a transport error. -/
def netBoom : Nat → NetResult := fun _ => NetResult.err "boom"

/-- C3: the per-task download makes at most 3 attempts, with exponential
backoff of 1s then 2s between attempts; when the destination does not already
match the expected hash and every network attempt fails (transport/stream
error, timeout, non-200 status, or post-download hash mismatch), the task
returns after exactly attempt 3 with a failed outcome recording the last
attempt's error, and no 4th attempt or request ever happens. -/
theorem downloadFile_retry_bound
    (h : String) (net : Nat → NetResult) (dest0 : Option String)
    (hpre : dest0 ≠ some h)
    (hnet : ∀ n c, net n = NetResult.ok c → c ≠ h) :
    (downloadFile (some h) net dest0).attempts = 3 ∧
    (downloadFile (some h) net dest0).requests = 3 ∧
    (downloadFile (some h) net dest0).delays = [1000, 2000] ∧
    ((downloadFile (some h) net dest0).result.success &&
      (downloadFile (some h) net dest0).result.validationPassed) = false ∧
    (downloadFile (some h) net dest0).result.error =
      some (attemptErrorMsg (some h) (net 3) 3) := by
  rcases dest0 with _ | d <;>
    rcases e1 : net 1 with c1 | m1 <;>
    rcases e2 : net 2 with c2 | m2 <;>
    rcases e3 : net 3 with c3 | m3
  all_goals try have hbd : (d == h) = false :=
    beq_eq_false_iff_ne.mpr (fun he => hpre (by rw [he]))
  all_goals try have hb1 : (c1 == h) = false := beq_eq_false_iff_ne.mpr (hnet 1 c1 e1)
  all_goals try have hb2 : (c2 == h) = false := beq_eq_false_iff_ne.mpr (hnet 2 c2 e2)
  all_goals try have hb3 : (c3 == h) = false := beq_eq_false_iff_ne.mpr (hnet 3 c3 e3)
  all_goals simp [downloadFile, downloadGo, MAX_ATTEMPTS, attemptErrorMsg, e1, e2, e3, *]

/-- Witness for C3: a network failing every attempt with a transport error
on a missing destination file. -/
theorem downloadFile_retry_bound_witness :
    ((none : Option String) ≠ some "aa") ∧
    (downloadFile (some "aa") netBoom none).attempts = 3 ∧
    (downloadFile (some "aa") netBoom none).requests = 3 ∧
    (downloadFile (some "aa") netBoom none).delays = [1000, 2000] ∧
    ((downloadFile (some "aa") netBoom none).result.success &&
      (downloadFile (some "aa") netBoom none).result.validationPassed) = false ∧
    (downloadFile (some "aa") netBoom none).result.error = some "boom" := by
  have hmain := downloadFile_retry_bound "aa" netBoom none (by decide)
    (fun n c hc => by simp [netBoom] at hc)
  exact ⟨by decide, hmain.1, hmain.2.1, hmain.2.2.1, hmain.2.2.2.1,
    by simpa [attemptErrorMsg, netBoom] using hmain.2.2.2.2⟩

/-- C4: when a hash is expected and the destination file already matches it,
downloadFile performs zero network requests, returns a successful validated
result, reports VALIDATING then VALIDATED, and finishes on attempt 1. -/
theorem downloadFile_existing_valid_no_requests
    (h d : String) (net : Nat → NetResult) (hmatch : d = h) :
    (downloadFile (some h) net (some d)).requests = 0 ∧
    (downloadFile (some h) net (some d)).result.success = true ∧
    (downloadFile (some h) net (some d)).result.validationPassed = true ∧
    (downloadFile (some h) net (some d)).statuses =
      [DownloadStatus.VALIDATING, DownloadStatus.VALIDATED] ∧
    (downloadFile (some h) net (some d)).attempts = 1 := by
  subst hmatch
  simp [downloadFile, downloadGo, MAX_ATTEMPTS]

/-- Witness for C4 at a concrete matching destination. -/
theorem downloadFile_existing_valid_no_requests_witness :
    ("aa" : String) = "aa" ∧
    (downloadFile (some "aa") netBoom (some "aa")).requests = 0 ∧
    (downloadFile (some "aa") netBoom (some "aa")).result.success = true ∧
    (downloadFile (some "aa") netBoom (some "aa")).result.validationPassed = true ∧
    (downloadFile (some "aa") netBoom (some "aa")).statuses =
      [DownloadStatus.VALIDATING, DownloadStatus.VALIDATED] ∧
    (downloadFile (some "aa") netBoom (some "aa")).attempts = 1 := by
  have hmain := downloadFile_existing_valid_no_requests "aa" "aa" netBoom rfl
  exact ⟨rfl, hmain.1, hmain.2.1, hmain.2.2.1, hmain.2.2.2.1, hmain.2.2.2.2⟩

def vdC5 : VersionDetails := { baseVD with id := "1.20.1", libraries := some [libA1] }

def vdC5w : VersionDetails :=
  { baseVD with id := "1.20.1", libraries := some [libB1, libB2] }

/-- C5 counterexample: on a filesystem where no file exists, buildClasspath
does NOT append the base client archive path even though it is not already
present in the list - the code appends it only when it exists on disk
(launchManager.ts lines 805 to 816). -/
theorem buildClasspath_append_counterexample :
    clientJarPathOf vdC5 "versions" ∉
      finalClassPathEntries vdC5 "libs" "versions" (fun _ => false) ∧
    clientJarPathOf vdC5 "versions" ∉
      (classpathLibraryMap (vdC5.libraries.getD []) "libs" (fun _ => false)).map Prod.snd := by
  decide

/-- C5 amended: buildClasspath deduplicates the included library entries by
their groupId:artifactId key (no two output library entries share a key), the
value bound to a key is that of the LAST included library with that key in
declaration order, and the base client archive path is appended last when it
exists on disk and is not already present (a missing client jar is only
warned about and omitted). -/
theorem buildClasspath_dedup_later_wins_append
    (vd : VersionDetails) (libraryRoot versionRoot : String) (fs : String → Bool)
    (libs : List Library) (k : String)
    (hlibs : vd.libraries = some libs) :
    ((classpathLibraryMap libs libraryRoot fs).map Prod.fst).Nodup ∧
    (classpathLibraryMap libs libraryRoot fs).lookup k =
      (libs.filterMap (classpathEntryFor libraryRoot fs)).reverse.lookup k ∧
    (fs (clientJarPathOf vd versionRoot) = true →
      clientJarPathOf vd versionRoot ∈ finalClassPathEntries vd libraryRoot versionRoot fs ∧
      (clientJarPathOf vd versionRoot ∉
          (classpathLibraryMap libs libraryRoot fs).map Prod.snd →
        finalClassPathEntries vd libraryRoot versionRoot fs =
          (classpathLibraryMap libs libraryRoot fs).map Prod.snd ++
            [clientJarPathOf vd versionRoot])) := by
  refine ⟨?_, ?_, ?_⟩
  · rw [classpathLibraryMap_eq_foldl]
    exact mapSet_foldl_keys_nodup _ [] (by simp)
  · rw [classpathLibraryMap_eq_foldl, lookup_mapSet_foldl]
    simp [List.lookup]
  · intro hfs
    unfold finalClassPathEntries
    rw [hlibs]
    simp only [Option.getD_some]
    cases hc : ((classpathLibraryMap libs libraryRoot fs).map Prod.snd).contains
        (clientJarPathOf vd versionRoot) with
    | true =>
      have hmem : clientJarPathOf vd versionRoot ∈
          (classpathLibraryMap libs libraryRoot fs).map Prod.snd := by
        have := List.elem_iff.mp hc
        exact this
      constructor
      · simp [hc, hmem]
      · intro habs
        exact absurd hmem habs
    | false =>
      constructor
      · simp [hc, hfs]
      · intro _
        simp [hc, hfs]

/-- Witness for C5 at a concrete definition with a duplicate key, the second
entry (a different jar path for the same group:artifact) winning, and the
client jar present on disk. -/
theorem buildClasspath_dedup_later_wins_append_witness :
    (((classpathLibraryMap [libB1, libB2] "libs" (fun _ => true)).map Prod.fst).Nodup ∧
    (classpathLibraryMap [libB1, libB2] "libs" (fun _ => true)).lookup "org.b:B" =
      ([libB1, libB2].filterMap (classpathEntryFor "libs" (fun _ => true))).reverse.lookup
        "org.b:B" ∧
    ((fun _ => true) (clientJarPathOf vdC5w "versions") = true →
      clientJarPathOf vdC5w "versions" ∈
        finalClassPathEntries vdC5w "libs" "versions" (fun _ => true) ∧
      (clientJarPathOf vdC5w "versions" ∉
          (classpathLibraryMap [libB1, libB2] "libs" (fun _ => true)).map Prod.snd →
        finalClassPathEntries vdC5w "libs" "versions" (fun _ => true) =
          (classpathLibraryMap [libB1, libB2] "libs" (fun _ => true)).map Prod.snd ++
            [clientJarPathOf vdC5w "versions"]))) := by
  exact buildClasspath_dedup_later_wins_append vdC5w "libs" "versions" (fun _ => true)
    [libB1, libB2] "org.b:B" (by decide)

/-- C6: a launch request while a process is tracked is rejected immediately:
the AlreadyRunning-class failure is returned, the tracked state is unchanged,
and the only emitted effect is a status event - no filesystem write, no
network request, and no second process spawn. -/
theorem launchVersion_single_flight
    (vd : VersionDetails) (vp lp asp : String) (st : LaunchState) (env : LaunchEnv)
    (pid : Nat) (hrun : st.runningProcess = some pid) :
    (launchVersion vd vp lp asp st env).1 = st ∧
    (launchVersion vd vp lp asp st env).2.1.success = false ∧
    (launchVersion vd vp lp asp st env).2.1.error = some "Game already running" ∧
    (launchVersion vd vp lp asp st env).2.2 =
      [Effect.statusEvent "error" "Game already running"] ∧
    (∀ e ∈ (launchVersion vd vp lp asp st env).2.2, ∀ s,
      e ≠ Effect.fsWrite s ∧ e ≠ Effect.netRequest s ∧ e ≠ Effect.spawnProc s) := by
  have hsome : st.runningProcess.isSome = true := by rw [hrun]; rfl
  refine ⟨?_, ?_, ?_, ?_, ?_⟩ <;> simp [launchVersion, hsome]

/-- Witness for C6 with a tracked process. -/
theorem launchVersion_single_flight_witness :
    ({ runningProcess := some 7 } : LaunchState).runningProcess = some 7 ∧
    (launchVersion baseVD "v" "l" "a" { runningProcess := some 7 }
        { assetTasks := [], newPid := 9 }).1 = { runningProcess := some 7 } ∧
    (launchVersion baseVD "v" "l" "a" { runningProcess := some 7 }
        { assetTasks := [], newPid := 9 }).2.1.success = false ∧
    (launchVersion baseVD "v" "l" "a" { runningProcess := some 7 }
        { assetTasks := [], newPid := 9 }).2.2 =
      [Effect.statusEvent "error" "Game already running"] := by
  have hmain := launchVersion_single_flight baseVD "v" "l" "a"
    { runningProcess := some 7 } { assetTasks := [], newPid := 9 } 7 rfl
  exact ⟨rfl, hmain.1, hmain.2.1, hmain.2.2.2.1⟩

def sysDefault : SysInfo := { platform := "linux", arch := "x64" }

def ctxWindows : RuleContext :=
  { os := { name := "windows", arch := "x64", version := none }, features := [] }

def ctxLinux : RuleContext :=
  { os := { name := "linux", arch := "x64", version := none }, features := [] }

def allowWindowsRule : Rule :=
  { action := Action.allow,
    os := some { name := some OsName.windows, arch := none, version := none },
    features := none }

def disallowWindowsRule : Rule :=
  { action := Action.disallow,
    os := some { name := some OsName.windows, arch := none, version := none },
    features := none }

/-- C7: rule evaluation - an empty rule list is true; allow-windows against a
windows context is true and against a linux context is false; disallow-windows
against a windows context is false; and a rule list evaluates to the logical
AND of the per-rule contributions. -/
theorem checkRule_examples :
    (∀ (context : Option RuleContext) (sys : SysInfo), checkRules [] context sys = true) ∧
    checkRule allowWindowsRule (some ctxWindows) sysDefault = true ∧
    checkRule allowWindowsRule (some ctxLinux) sysDefault = false ∧
    checkRule disallowWindowsRule (some ctxWindows) sysDefault = false ∧
    (∀ (rules : List Rule) (context : Option RuleContext) (sys : SysInfo),
      checkRules rules context sys = true ↔
        ∀ r ∈ rules, checkRule r context sys = true) := by
  refine ⟨fun _ _ => rfl, by decide, by decide, by decide, fun rules context sys => ?_⟩
  simp [checkRules, List.all_eq_true]

def natClsC8 : List (String × DownloadDetails) :=
  [("natives-linux", { sha1 := "s2", size := 1, url := "u2", path := some "q.jar" })]

def natLibC8 : Library :=
  let art : DownloadDetails := { sha1 := "s", size := 1, url := "u", path := some "p.jar" }
  { downloads := some { artifact := some art, classifiers := some natClsC8 },
    name := "org.ex:nat:1:natives-linux",
    rules := none,
    natives := some { linux := some "natives-linux", osx := none, windows := none },
    extract := none }

/-- C8 counterexample: a library whose name matches detection path (a)
(classifier natives-linux on linux) but whose primary jar is missing on disk
IS also processed by fallback path (b): the natives-mapping fallback resolves
the classifier and extracts its jar, so both detection paths process the same
library. -/
theorem extractNatives_both_paths_counterexample :
    (extractNativesLib "linux" "x64" none "libs" (fun p => p == "libs/q.jar")
        natLibC8).primaryMatched = true ∧
    (extractNativesLib "linux" "x64" none "libs" (fun p => p == "libs/q.jar")
        natLibC8).fallbackProcessed = true ∧
    (extractNativesLib "linux" "x64" none "libs" (fun p => p == "libs/q.jar")
        natLibC8).fallbackExtracted = true := by
  decide

theorem nativeOutcomeTail_primaryExtracted_eq
    (osn arch lr : String) (fs : String → Bool) (pc pe : Bool)
    (fc : Option (String × List (String × DownloadDetails))) :
    (nativeOutcomeTail osn arch lr fs pc pe fc).primaryExtracted = pe := by
  unfold nativeOutcomeTail
  cases pe with
  | true => simp
  | false =>
    rcases fc with _ | ⟨a, cls⟩
    · simp
    · simp only [Bool.false_eq_true, if_false]
      split <;> rfl

theorem nativeOutcomeTail_no_fallback_when_extracted
    (osn arch lr : String) (fs : String → Bool) (pc : Bool)
    (fc : Option (String × List (String × DownloadDetails))) :
    (nativeOutcomeTail osn arch lr fs pc true fc).fallbackProcessed = false := by
  unfold nativeOutcomeTail
  simp

theorem extractNativesLib_shape
    (osn arch : String) (osv : Option String) (lr : String) (fs : String → Bool)
    (lib : Library) :
    extractNativesLib osn arch osv lr fs lib =
      { rulesAllowed := false, primaryMatched := false, primaryExtracted := false,
        fallbackProcessed := false, fallbackExtracted := false } ∨
    ∃ pc pe fc, extractNativesLib osn arch osv lr fs lib =
      nativeOutcomeTail osn arch lr fs pc pe fc := by
  unfold extractNativesLib
  dsimp only
  split
  · exact Or.inl rfl
  · exact Or.inr ⟨_, _, _, rfl⟩

/-- C8 amended: a library from which path (a) successfully extracts is not
also processed by path (b) - the fallback runs only when the primary
extraction did NOT happen (extractedThisLib still false, launchManager.ts
line 413); when the primary path merely matches by name but fails to extract
(missing jar), the fallback may still process the library. -/
theorem extractNatives_no_fallback_after_primary
    (osn arch : String) (osv : Option String) (lr : String) (fs : String → Bool)
    (lib : Library)
    (hp : (extractNativesLib osn arch osv lr fs lib).primaryExtracted = true) :
    (extractNativesLib osn arch osv lr fs lib).fallbackProcessed = false := by
  rcases extractNativesLib_shape osn arch osv lr fs lib with heq | ⟨pc, pe, fc, heq⟩
  · rw [heq] at hp
    simp at hp
  · rw [heq] at hp ⊢
    rw [nativeOutcomeTail_primaryExtracted_eq] at hp
    subst hp
    exact nativeOutcomeTail_no_fallback_when_extracted osn arch lr fs pc fc

/-- Witness for C8 amended: with the primary jar present, path (a) extracts
and the fallback is skipped. -/
theorem extractNatives_no_fallback_after_primary_witness :
    (extractNativesLib "linux" "x64" none "libs" (fun _ => true)
        natLibC8).primaryExtracted = true ∧
    (extractNativesLib "linux" "x64" none "libs" (fun _ => true)
        natLibC8).fallbackProcessed = false := by
  have h1 : (extractNativesLib "linux" "x64" none "libs" (fun _ => true)
      natLibC8).primaryExtracted = true := by decide
  exact ⟨h1, extractNatives_no_fallback_after_primary "linux" "x64" none "libs"
    (fun _ => true) natLibC8 h1⟩

/-- C9: the worker pool of downloadMultipleFiles violates its concurrency
bound: with tasks [1,2,3,4], limit 2 and task 1 completing first, three
downloads are simultaneously in flight - after the first completion both the
completion callback's new execute() invocation and the race-resumed original
invocation start a task.  Every task is still started exactly once. -/
theorem downloadMultipleFiles_pool_bound_violation :
    (runPool [1, 2, 3, 4] 2 [1, 2, 3, 4]).maxInFlight = 3 ∧
    2 < (runPool [1, 2, 3, 4] 2 [1, 2, 3, 4]).maxInFlight ∧
    (runPool [1, 2, 3, 4] 2 [1, 2, 3, 4]).started = [1, 2, 3, 4] := by
  decide

def demoRule : Rule :=
  { action := Action.allow, os := none, features := some [("is_demo_user", true)] }

def quickPlayRule : Rule :=
  { action := Action.allow, os := none,
    features := some [("has_quick_plays_support", true)] }

/-- C10 counterexample: a conditional entry whose rule requires the
has_quick_plays_support feature flag is NOT dropped: without a context,
checkRule forces only is_demo_user and has_custom_resolution inactive and
ignores every other declared feature, so the entry contributes its value. -/
theorem processArguments_feature_counterexample :
    processArguments [ArgEntry.ruled (some [quickPlayRule]) (ArgValue.one "--quickPlay")]
      [] sysDefault ≠ [] := by
  decide

/-- C10 amended: a conditional entry among whose rules is an allow rule
requiring is_demo_user or has_custom_resolution contributes nothing,
regardless of the variables map or settings: processArguments checks rules
without a context and exactly those two flags are then treated as inactive
(entries gated on other feature flags are NOT dropped). -/
theorem processArguments_drops_demo_and_resolution_entries
    (xs ys : List ArgEntry) (vars : List (String × String)) (sys : SysInfo)
    (rules : List Rule) (value : ArgValue) (r : Rule) (fsr : List (String × Bool))
    (hr : r ∈ rules) (ha : r.action = Action.allow) (hf : r.features = some fsr)
    (hreq : featureLookup fsr "is_demo_user" = true ∨
      featureLookup fsr "has_custom_resolution" = true) :
    processArguments (xs ++ ArgEntry.ruled (some rules) value :: ys) vars sys =
      processArguments xs vars sys ++ processArguments ys vars sys := by
  have hcr : checkRule r none sys = false := by
    unfold checkRule
    rcases hreq with h1 | h1 <;> simp [hf, ha, h1]
  have hall : rules.all (fun rule => checkRule rule none sys) = false := by
    cases hcase : rules.all (fun rule => checkRule rule none sys)
    · rfl
    · exact absurd (List.all_eq_true.mp hcase r hr) (by simp [hcr])
  have hout : argEntryOutput vars sys (ArgEntry.ruled (some rules) value) = [] := by
    simp [argEntryOutput, hall]
  rw [show ArgEntry.ruled (some rules) value :: ys =
      [ArgEntry.ruled (some rules) value] ++ ys from rfl,
    processArguments_append, processArguments_append]
  simp [processArguments, hout]

/-- Witness for C10 amended: an is_demo_user gated entry between two plain
entries contributes nothing. -/
theorem processArguments_drops_demo_and_resolution_entries_witness :
    demoRule ∈ [demoRule] ∧
    demoRule.action = Action.allow ∧
    demoRule.features = some [("is_demo_user", true)] ∧
    featureLookup [("is_demo_user", true)] "is_demo_user" = true ∧
    processArguments
        ([ArgEntry.str "A"] ++
          ArgEntry.ruled (some [demoRule]) (ArgValue.one "--demo") :: [ArgEntry.str "B"])
        [] sysDefault =
      processArguments [ArgEntry.str "A"] [] sysDefault ++
        processArguments [ArgEntry.str "B"] [] sysDefault := by
  refine ⟨List.mem_singleton.mpr rfl, rfl, rfl, by decide, ?_⟩
  exact processArguments_drops_demo_and_resolution_entries
    [ArgEntry.str "A"] [ArgEntry.str "B"] [] sysDefault [demoRule]
    (ArgValue.one "--demo") demoRule [("is_demo_user", true)]
    (List.mem_singleton.mpr rfl) rfl rfl (Or.inl (by decide))

end LLauncher
